import Mathlib

/-!
Verification of the life-simulation step kernel.

The definitions below are a shallow embedding of the WGSL compute kernel
and its JavaScript driver: the machine integer types u32 and i32 are
modelled as Nat and Int, with explicit truncation modulo 2 ^ 32 where the
source can overflow, WGSL integer division and remainder (which truncate
toward zero) as Int.tdiv and Int.tmod, and the world buffers as functions
from linear indices to decoded cell records.  The driver copies the next
buffer into the last buffer before every dispatch, so one synchronous tick
reads every cell from the old buffer and applies the per-cell tasks'
writes to a copy of it.  The only floating-point ingredient, the
pseudo-random draw, is modelled as an oracle of rational draws in [0, 1).
-/

namespace LifeSim

/-! Concrete witnesses evaluate rational arithmetic (the random draws);
the upstream multiplication and inverse on the rationals are marked
irreducible, which blocks evaluation by decide, so their reducibility is
restored here.  This changes no definition and no statement. -/

set_option allowUnsafeReducibility true

attribute [semireducible] Rat.mul Rat.inv

/-! Bit-field helpers from node.wgsl.  getBits and setBits operate on u32
words; the bitwise complement of the mask in setBits is the 32-bit
complement, written as xor with 2 ^ 32 - 1. -/

def getBits (value off bits : ℕ) : ℕ :=
  (value >>> off) &&& ((1 <<< bits) - 1)

def not32 (m : ℕ) : ℕ := (2 ^ 32 - 1) ^^^ m

def setBits (original off bits value : ℕ) : ℕ :=
  let mask := ((1 <<< bits) - 1) <<< off
  (original &&& not32 mask) ||| ((value <<< off) &&& mask)

/-! The decoded cell record (struct Node in node.wgsl).  The vec3u diet
is flattened into a triple of naturals; direction, energy, minerals and
color are i32 in the source and are modelled as Int. -/

structure V3 where
  x : ℕ
  y : ℕ
  z : ℕ
deriving DecidableEq, Repr

structure Node where
  kind : ℕ
  direction : ℤ
  age : ℕ
  energy : ℤ
  minerals : ℤ
  diet : V3
  color : ℤ
  currentGene : ℕ
  genome : List ℕ
deriving DecidableEq, Repr

def KIND_AIR : ℕ := 0x0
def KIND_WALL : ℕ := 0x1
def KIND_FOOD : ℕ := 0x2
def KIND_ACTIVE : ℕ := 0x3

def GENOME_LENGTH : ℕ := 64

def NODE_AIR : Node :=
  ⟨0, 0, 0, 0, 0, ⟨0, 0, 0⟩, 0, 0, List.replicate GENOME_LENGTH 0⟩

def NODE_WALL : Node :=
  ⟨KIND_WALL, 0, 0, 0, 0, ⟨0, 0, 0⟩, 0, 0, List.replicate GENOME_LENGTH 0⟩

def NODE_FOOD : Node :=
  ⟨KIND_FOOD, 0, 0, 50, 0, ⟨0, 0, 0⟩, 0, 0, List.replicate GENOME_LENGTH 0⟩

/-! The packed 18-word cell record (struct PackedNode): two property
words and 16 genome words of four bytes each. -/

structure PackedNode where
  props0 : ℕ
  props1 : ℕ
  genome : List ℕ
deriving DecidableEq, Repr

/-- Conversion u32(x) applied to an i32 value: two's-complement
reinterpretation, that is reduction modulo 2 ^ 32. -/
def toU32 (z : ℤ) : ℕ := (z % (2 ^ 32 : ℤ)).toNat

def unpackNode (p : PackedNode) : Node :=
  { kind := getBits p.props0 0 4
    direction := (getBits p.props0 4 2 : ℤ)
    age := getBits p.props0 8 8
    energy := (getBits p.props0 16 8 : ℤ)
    minerals := (getBits p.props0 24 4 : ℤ)
    diet := ⟨getBits p.props0 6 2, getBits p.props0 28 2, getBits p.props0 30 2⟩
    color := (getBits p.props1 0 8 : ℤ)
    currentGene := getBits p.props1 24 8
    genome := (List.range GENOME_LENGTH).map fun i =>
      getBits (p.genome.getD (i / 4) 0) ((i % 4) * 8) 8 }

/-- One packed genome word.  The source loop visits gene indices in
ascending order, so each of the 16 words receives its four bytes at
offsets 0, 8, 16, 24 in this order. -/
def word4 (b0 b1 b2 b3 : ℕ) : ℕ :=
  setBits (setBits (setBits (setBits 0 0 8 b0) 8 8 b1) 16 8 b2) 24 8 b3

def packNode (n : Node) : PackedNode :=
  let props0 := setBits 0 0 4 n.kind
  let props0 := setBits props0 4 2 (toU32 n.direction)
  let props0 := setBits props0 6 2 n.diet.x
  let props0 := setBits props0 8 8 n.age
  let props0 := setBits props0 16 8 (toU32 n.energy)
  let props0 := setBits props0 24 8 (toU32 n.minerals)
  let props0 := setBits props0 28 2 n.diet.y
  let props0 := setBits props0 30 2 n.diet.z
  let props1 := setBits 0 0 8 (toU32 n.color)
  let props1 := setBits props1 24 8 n.currentGene
  { props0 := props0
    props1 := props1
    genome := (List.range (GENOME_LENGTH / 4)).map fun j =>
      word4 (n.genome.getD (4 * j) 0) (n.genome.getD (4 * j + 1) 0)
        (n.genome.getD (4 * j + 2) 0) (n.genome.getD (4 * j + 3) 0) }

/-! Bit-level laws of getBits and setBits. -/

theorem one_shiftLeft_eq (b : ℕ) : (1 <<< b) = 2 ^ b := by
  simp [Nat.shiftLeft_eq]

theorem testBit_getBits (x off b i : ℕ) :
    (getBits x off b).testBit i = (x.testBit (off + i) && decide (i < b)) := by
  simp [getBits, one_shiftLeft_eq, Nat.testBit_and, Nat.testBit_shiftRight,
    Nat.testBit_two_pow_sub_one]
  exact Bool.and_comm _ _

theorem testBit_setBits {off b : ℕ} (x v : ℕ) (hb : off + b ≤ 32) (i : ℕ) :
    (setBits x off b v).testBit i =
      if off ≤ i ∧ i < off + b then v.testBit (i - off)
      else (x.testBit i && decide (i < 32)) := by
  simp only [setBits, not32, one_shiftLeft_eq, Nat.testBit_or, Nat.testBit_and,
    Nat.testBit_xor, Nat.testBit_shiftLeft, Nat.testBit_two_pow_sub_one]
  by_cases h1 : off ≤ i
  · by_cases h2 : i < off + b
    · have h3 : i < 32 := by omega
      have h4 : i - off < b := by omega
      simp [h1, h2, h3, h4, Nat.not_lt.mpr, ge_iff_le]
    · have h4 : ¬ (i - off < b) := by omega
      by_cases h3 : i < 32 <;> simp [h1, h2, h3, h4, ge_iff_le]
  · have h2 : ¬ (i < off + b) ∨ ¬ off ≤ i := Or.inr h1
    have h4 : ¬ (off ≤ i ∧ i < off + b) := by omega
    by_cases h3 : i < 32 <;> simp [h1, h3, h4, ge_iff_le]

theorem getBits_setBits_outside {off1 b1 off2 b2 : ℕ} (x v : ℕ)
    (hd : off1 + b1 ≤ off2 ∨ off2 + b2 ≤ off1)
    (h1 : off1 + b1 ≤ 32) (h2 : off2 + b2 ≤ 32) :
    getBits (setBits x off2 b2 v) off1 b1 = getBits x off1 b1 := by
  apply Nat.eq_of_testBit_eq
  intro i
  rw [testBit_getBits, testBit_getBits, testBit_setBits x v h2]
  by_cases hib : i < b1
  · have hout : ¬ (off2 ≤ off1 + i ∧ off1 + i < off2 + b2) := by omega
    have h32 : off1 + i < 32 := by omega
    rw [if_neg hout]
    simp [h32, hib]
  · simp [hib]

theorem getBits_setBits_inside {off1 b1 off2 b2 : ℕ} (x v : ℕ)
    (hs : off2 ≤ off1) (he : off1 + b1 ≤ off2 + b2) (h2 : off2 + b2 ≤ 32) :
    getBits (setBits x off2 b2 v) off1 b1 = getBits v (off1 - off2) b1 := by
  apply Nat.eq_of_testBit_eq
  intro i
  rw [testBit_getBits, testBit_getBits, testBit_setBits x v h2]
  by_cases hib : i < b1
  · have hw : off2 ≤ off1 + i ∧ off1 + i < off2 + b2 := by omega
    rw [if_pos hw]
    have hix : off1 + i - off2 = off1 - off2 + i := by omega
    rw [hix]
  · simp [hib]

theorem getBits_low (v b : ℕ) : getBits v 0 b = v % 2 ^ b := by
  simp [getBits, one_shiftLeft_eq, Nat.shiftRight_zero, Nat.and_pow_two_sub_one_eq_mod]

theorem getD_eq_getElem {α : Type} (l : List α) (d : α) {n : ℕ} (h : n < l.length) :
    l.getD n d = l[n] := by
  simp [List.getD_eq_getElem?_getD, List.getElem?_eq_getElem h]

theorem word4_byte0 (b0 b1 b2 b3 : ℕ) (h0 : b0 < 256) :
    getBits (word4 b0 b1 b2 b3) 0 8 = b0 := by
  unfold word4
  simp (disch := omega) only [getBits_setBits_outside, getBits_setBits_inside]
  rw [getBits_low]
  norm_num
  omega

theorem word4_byte1 (b0 b1 b2 b3 : ℕ) (h1 : b1 < 256) :
    getBits (word4 b0 b1 b2 b3) 8 8 = b1 := by
  unfold word4
  simp (disch := omega) only [getBits_setBits_outside, getBits_setBits_inside]
  rw [getBits_low]
  norm_num
  omega

theorem word4_byte2 (b0 b1 b2 b3 : ℕ) (h2 : b2 < 256) :
    getBits (word4 b0 b1 b2 b3) 16 8 = b2 := by
  unfold word4
  simp (disch := omega) only [getBits_setBits_outside, getBits_setBits_inside]
  rw [getBits_low]
  norm_num
  omega

theorem word4_byte3 (b0 b1 b2 b3 : ℕ) (h3 : b3 < 256) :
    getBits (word4 b0 b1 b2 b3) 24 8 = b3 := by
  unfold word4
  simp (disch := omega) only [getBits_setBits_outside, getBits_setBits_inside]
  rw [getBits_low]
  norm_num
  omega

/-- Claim C3, amended.  For every cell whose fields lie in the bit widths
of the layout implemented in node.wgsl (4-bit kind, 2-bit direction,
8-bit age, 8-bit energy, 4-bit minerals, three 2-bit diet counters,
8-bit color, 8-bit current gene slot of which the simulation uses
values below 64, and a 64-byte genome), unpacking the packed record
returns the cell unchanged; and packing the AIR sentinel yields the
all-zero 18-word record.  The age bound is 255, not the 511 stated in
the claim: the implemented layout stores age in eight bits. -/
theorem c3_roundtrip (n : Node)
    (hkind : n.kind < 16)
    (hdir : 0 ≤ n.direction ∧ n.direction < 4)
    (hage : n.age < 256)
    (hen : 0 ≤ n.energy ∧ n.energy < 256)
    (hmin : 0 ≤ n.minerals ∧ n.minerals < 16)
    (hdx : n.diet.x < 4) (hdy : n.diet.y < 4) (hdz : n.diet.z < 4)
    (hcol : 0 ≤ n.color ∧ n.color < 256)
    (hgene : n.currentGene < 64)
    (hlen : n.genome.length = GENOME_LENGTH)
    (hbytes : ∀ b ∈ n.genome, b < 256) :
    unpackNode (packNode n) = n ∧
      packNode NODE_AIR = ⟨0, 0, List.replicate 16 0⟩ := by
  refine ⟨?_, by decide⟩
  obtain ⟨kind, direction, age, energy, minerals, diet, color, currentGene, genome⟩ := n
  obtain ⟨dx, dy, dz⟩ := diet
  dsimp only at hkind hdir hage hen hmin hdx hdy hdz hcol hgene hlen hbytes
  simp only [packNode, unpackNode, Node.mk.injEq, V3.mk.injEq]
  refine ⟨?_, ?_, ?_, ?_, ?_, ⟨?_, ?_, ?_⟩, ?_, ?_, ?_⟩
  · -- kind, bits 0-3 of props0
    simp (disch := omega) only [getBits_setBits_outside, getBits_setBits_inside]
    rw [getBits_low]
    norm_num
    omega
  · -- direction, bits 4-5 of props0
    simp (disch := omega) only [getBits_setBits_outside, getBits_setBits_inside]
    rw [getBits_low]
    simp only [toU32]
    norm_num
    omega
  · -- age, bits 8-15 of props0
    simp (disch := omega) only [getBits_setBits_outside, getBits_setBits_inside]
    rw [getBits_low]
    norm_num
    omega
  · -- energy, bits 16-23 of props0
    simp (disch := omega) only [getBits_setBits_outside, getBits_setBits_inside]
    rw [getBits_low]
    simp only [toU32]
    norm_num
    omega
  · -- minerals, read as bits 24-27 of the eight bits written at 24
    simp (disch := omega) only [getBits_setBits_outside, getBits_setBits_inside]
    rw [getBits_low]
    simp only [toU32]
    norm_num
    omega
  · -- diet.x, bits 6-7 of props0
    simp (disch := omega) only [getBits_setBits_outside, getBits_setBits_inside]
    rw [getBits_low]
    norm_num
    omega
  · -- diet.y, bits 28-29 of props0
    simp (disch := omega) only [getBits_setBits_outside, getBits_setBits_inside]
    rw [getBits_low]
    norm_num
    omega
  · -- diet.z, bits 30-31 of props0
    simp (disch := omega) only [getBits_setBits_outside, getBits_setBits_inside]
    rw [getBits_low]
    norm_num
    omega
  · -- color, bits 0-7 of props1
    simp (disch := omega) only [getBits_setBits_outside, getBits_setBits_inside]
    rw [getBits_low]
    simp only [toU32]
    norm_num
    omega
  · -- currentGene, bits 24-31 of props1
    simp (disch := omega) only [getBits_setBits_outside, getBits_setBits_inside]
    rw [getBits_low]
    norm_num
    omega
  · -- genome bytes
    have hlen64 : genome.length = 64 := by simpa [GENOME_LENGTH] using hlen
    apply List.ext_getElem
    · simp [GENOME_LENGTH, hlen64]
    · intro i hl hr
      have hi : i < 64 := by simpa [GENOME_LENGTH] using hl
      simp only [GENOME_LENGTH, List.getElem_map, List.getElem_range]
      rw [getD_eq_getElem _ _ (by simp [GENOME_LENGTH]; omega)]
      simp only [List.getElem_map, List.getElem_range]
      have hmem : ∀ {k : ℕ}, k < 64 → genome.getD k 0 < 256 := by
        intro k hk
        rw [getD_eq_getElem _ _ (by omega)]
        exact hbytes _ (genome.getElem_mem (by omega))
      have h4 : i % 4 = 0 ∨ i % 4 = 1 ∨ i % 4 = 2 ∨ i % 4 = 3 := by omega
      rcases h4 with h4 | h4 | h4 | h4 <;>
        rw [h4] <;> norm_num [-List.getD_eq_getElem?_getD]
      · have hix : 4 * (i / 4) = i := by omega
        rw [hix, word4_byte0 _ _ _ _ (hmem hi), getD_eq_getElem _ _ (by omega)]
      · have hix : 4 * (i / 4) + 1 = i := by omega
        rw [hix, word4_byte1 _ _ _ _ (hmem hi), getD_eq_getElem _ _ (by omega)]
      · have hix : 4 * (i / 4) + 2 = i := by omega
        rw [hix, word4_byte2 _ _ _ _ (hmem hi), getD_eq_getElem _ _ (by omega)]
      · have hix : 4 * (i / 4) + 3 = i := by omega
        rw [hix, word4_byte3 _ _ _ _ (hmem hi), getD_eq_getElem _ _ (by omega)]

/-- An active cell with age 511: all fields are inside the ranges that
§3 of the specification lists for ACTIVE cells. -/
def ageNode : Node :=
  ⟨KIND_ACTIVE, 0, 511, 0, 0, ⟨0, 0, 0⟩, 0, 0, List.replicate GENOME_LENGTH 0⟩

/-- Claim C3, counterexample.  The claim asserts the round trip for any
age in the interval from 0 to 511, but the layout implemented in
node.wgsl stores age in eight bits: packing an active cell of age 511
and unpacking it yields age 255, not 511. -/
theorem c3_counterexample :
    unpackNode (packNode ageNode) ≠ ageNode ∧
      ageNode.age = 511 ∧ (unpackNode (packNode ageNode)).age = 255 := by
  decide

/-- A sample in-range active cell used to instantiate the round trip. -/
def sampleNode : Node :=
  ⟨KIND_ACTIVE, 1, 200, 100, 7, ⟨1, 2, 3⟩, 9, 17, List.replicate GENOME_LENGTH 70⟩

/-- Witness for c3_roundtrip at a concrete in-range active cell. -/
theorem c3_witness :
    unpackNode (packNode sampleNode) = sampleNode ∧
      packNode NODE_AIR = ⟨0, 0, List.replicate 16 0⟩ :=
  c3_roundtrip sampleNode (by decide) (by decide) (by decide) (by decide)
    (by decide) (by decide) (by decide) (by decide) (by decide) (by decide)
    (by decide) (by decide)

/-! Embedding of the step kernel (the four-direction revision of the
stepWorld shader: canMove, isEaten, spawnChild, stepFood, stepActive and
the per-cell dispatch).  Cell buffers hold decoded nodes indexed by the
linear index; the codec above is verified separately.  A task's calls to
setNodeAt are collected, in order, as a list of raw position-node pairs;
applying a write checks validity and normalizes the index exactly as
setNodeAt does. -/

structure Vec2 where
  x : ℤ
  y : ℤ
deriving DecidableEq, Repr

instance : Add Vec2 := ⟨fun a b => ⟨a.x + b.x, a.y + b.y⟩⟩

theorem Vec2.add_def (a b : Vec2) : a + b = ⟨a.x + b.x, a.y + b.y⟩ := rfl

structure Config where
  WORLD_SIZE : Vec2
  NODE_MAX_AGE : ℕ
  NODE_MAX_ENERGY : ℤ
  NODE_MAX_MINERALS : ℤ
  MINERAL_ENERGY : ℤ
  SUN_AMOUNT : ℤ
  SUN_LEVEL_HEIGHT : ℤ
  MINERAL_AMOUNT : ℤ
  MINERAL_LEVEL_HEIGHT : ℤ
  RELATIVE_THRESHOLD : ℕ
  REPRODUCTION_COST : ℤ
  MUTATION_RATE : ℚ

/-- The snapshot world a dispatch reads: the configuration, the decoded
content of the lastWorld buffer as a function of the linear index, and
the pseudo-random draw available at each position.  The draw models the
f32 position hash fract(sin(dot(pos, k)) * c) of the source as an oracle
of rational values in the interval [0, 1): transcendental f32 arithmetic
has no exact shallow embedding, while every use of the draw in the kernel
is a comparison or a truncation that is faithfully reproduced below. -/
structure World where
  config : Config
  lastWorld : ℤ → Node
  rand : Vec2 → ℚ

def isValidPos (cfg : Config) (pos : Vec2) : Bool :=
  decide (pos.y ≥ 0) && decide (pos.y < cfg.WORLD_SIZE.y)

def getIndexForPos (cfg : Config) (pos : Vec2) : ℤ :=
  (pos.x.tmod cfg.WORLD_SIZE.x) * cfg.WORLD_SIZE.y + pos.y.tmod cfg.WORLD_SIZE.y

def getNodeAt (w : World) (pos : Vec2) : Node :=
  if isValidPos w.config pos then w.lastWorld (getIndexForPos w.config pos)
  else NODE_WALL

def GENE_MOVE_FORWARD : ℕ := 64
def GENE_TURN_CCW : ℕ := 65
def GENE_TURN_CW : ℕ := 66
def GENE_EAT_FORWARD : ℕ := 67
def GENE_REPRODUCE_FORWARD : ℕ := 68
def GENE_REPRODUCE_BACKWARD : ℕ := 69
def GENE_PHOTOSYNTHESIZE : ℕ := 70
def GENE_CHECK_FORWARD : ℕ := 71
def GENE_CHECK_ENERGY : ℕ := 72
def GENE_CONVERT_MINERALS : ℕ := 73

def NUM_GENES : ℕ := GENE_CONVERT_MINERALS + 1

/-- One pseudo-random draw at a position (see the World field rand). -/
def random (w : World) (st : Vec2) : ℚ := w.rand st

/-- Ranged draw u32(random(st) * f32(maxExcluded - min)) + min; the u32
conversion of a non-negative float truncates, that is takes the floor. -/
def randU32 (w : World) (st : Vec2) (min maxExcluded : ℕ) : ℕ :=
  (Int.floor (random w st * ((maxExcluded - min : ℕ) : ℚ))).toNat + min

def directionToVec2 (direction : ℤ) : Vec2 :=
  if direction.tmod 4 = 0 then ⟨1, 0⟩
  else if direction.tmod 4 = 1 then ⟨0, -1⟩
  else if direction.tmod 4 = 2 then ⟨-1, 0⟩
  else if direction.tmod 4 = 3 then ⟨0, 1⟩
  else ⟨0, 0⟩

def mutateGenome (w : World) (genome : List ℕ) (pos : Vec2) : List ℕ :=
  if random w pos ≥ w.config.MUTATION_RATE / 100 then
    let index := randU32 w (pos + ⟨1, 0⟩) 0 GENOME_LENGTH
    let newGene := randU32 w (pos + ⟨2, 0⟩) 0 NUM_GENES
    genome.set index newGene
  else genome

def getSunAmountAt (cfg : Config) (y : ℤ) : ℤ :=
  max (cfg.SUN_AMOUNT - y.tdiv cfg.SUN_LEVEL_HEIGHT) 0

def getMineralAmountAt (cfg : Config) (y : ℤ) : ℤ :=
  let reverseY := cfg.WORLD_SIZE.y - 1 - y
  max (cfg.MINERAL_AMOUNT - reverseY.tdiv cfg.MINERAL_LEVEL_HEIGHT) 0

def canMove (w : World) (node : Node) (fromPos toPos : Vec2) : Bool :=
  let attackedNode := getNodeAt w toPos
  if attackedNode.kind > KIND_AIR then false
  else
    (List.range 4).all fun direction =>
      let candidatePos := toPos + directionToVec2 (direction : ℤ)
      if candidatePos = fromPos then true
      else
        let rivalNode := getNodeAt w candidatePos
        if rivalNode.kind = KIND_ACTIVE then
          let rivalNodeIntent := rivalNode.genome.getD rivalNode.currentGene 0
          if rivalNodeIntent ≠ GENE_MOVE_FORWARD then true
          else if (rivalNode.direction + 2).tmod 4 ≠ (direction : ℤ) then true
          else decide (node.energy > rivalNode.energy)
        else if rivalNode.kind = KIND_FOOD then
          if direction ≠ 1 then true
          else decide (node.energy > rivalNode.energy)
        else true

def isEaten (w : World) (pos : Vec2) : Bool :=
  (List.range 4).any fun direction =>
    let candidatePos := pos + directionToVec2 (direction : ℤ)
    let neighbor := getNodeAt w candidatePos
    if neighbor.kind ≠ KIND_ACTIVE then false
    else if neighbor.genome.getD neighbor.currentGene 0 ≠ GENE_EAT_FORWARD then false
    else if neighbor.direction ≠ ((direction : ℤ) + 2).tmod 4 then false
    else true

/-- Attempt to spawn a child; returns the setNodeAt writes and the energy
cost, which is 0 if the attempt failed. -/
def spawnChild (w : World) (parentPos : Vec2) (parent : Node) (childPos : Vec2) :
    List (Vec2 × Node) × ℤ :=
  let halfEnergy := (parent.energy - w.config.REPRODUCTION_COST).tdiv 2
  if halfEnergy ≤ 0 then ([], 0)
  else if ¬ canMove w parent parentPos childPos then ([], 0)
  else
    let genome := mutateGenome w parent.genome childPos
    let child : Node :=
      ⟨KIND_ACTIVE, parent.direction, 0, halfEnergy, 0, ⟨0, 0, 0⟩, 0, 0, genome⟩
    ([(childPos, child)], halfEnergy)

def areRelatives (w : World) (genomeA genomeB : List ℕ) : Bool :=
  decide (((List.range GENOME_LENGTH).countP fun i =>
    genomeA.getD i 0 != genomeB.getD i 0) ≤ w.config.RELATIVE_THRESHOLD)

def stepFood (w : World) (pos : Vec2) (node : Node) : List (Vec2 × Node) :=
  if isEaten w pos then [(pos, NODE_AIR)]
  else
    let newPos := pos + (⟨0, 1⟩ : Vec2)
    if canMove w node pos newPos then [(newPos, node), (pos, NODE_AIR)]
    else []

/-- The switch over the current gene in stepActive.  The result collects
the setNodeAt writes the branch performed (only reproduction writes), the
possibly updated position, the locally updated node, and the gene step. -/
def stepActiveBranch (w : World) (pos0 : Vec2) (node0 : Node) :
    List (Vec2 × Node) × Vec2 × Node × ℕ :=
    let gene := node0.genome.getD node0.currentGene 0
    if gene = GENE_MOVE_FORWARD then
        let newPos := pos0 + directionToVec2 node0.direction
        if canMove w node0 pos0 newPos then ([], newPos, node0, 1)
        else ([], pos0, node0, 1)
      else if gene = GENE_TURN_CCW then
        ([], pos0, { node0 with direction := (node0.direction + 1).tmod 4 }, 1)
      else if gene = GENE_TURN_CW then
        ([], pos0, { node0 with direction := (node0.direction + 3).tmod 4 }, 1)
      else if gene = GENE_EAT_FORWARD then
        let stepIfSucceeded := node0.genome.getD ((node0.currentGene + 1) % GENOME_LENGTH) 0
        let stepIfFailed := node0.genome.getD ((node0.currentGene + 2) % GENOME_LENGTH) 0
        let attackedPos := pos0 + directionToVec2 node0.direction
        let attackedNode := getNodeAt w attackedPos
        if attackedNode.kind < KIND_FOOD then ([], pos0, node0, stepIfFailed)
        else
          ([], pos0,
            { node0 with
              energy := node0.energy + attackedNode.energy
              diet := ⟨min 3 (node0.diet.x + 1), node0.diet.y, node0.diet.z⟩ },
            stepIfSucceeded)
      else if gene = GENE_REPRODUCE_FORWARD then
        let childPos := pos0 + directionToVec2 node0.direction
        let sc := spawnChild w pos0 node0 childPos
        if sc.2 > 0 then (sc.1, pos0, { node0 with energy := node0.energy - sc.2 }, 1)
        else (sc.1, pos0, node0, 1)
      else if gene = GENE_REPRODUCE_BACKWARD then
        let childPos := pos0 + directionToVec2 (node0.direction + 2)
        let sc := spawnChild w pos0 node0 childPos
        if sc.2 > 0 then (sc.1, pos0, { node0 with energy := node0.energy - sc.2 }, 1)
        else (sc.1, pos0, node0, 1)
      else if gene = GENE_PHOTOSYNTHESIZE then
        let sunAmount := getSunAmountAt w.config pos0.y
        if sunAmount > 0 then
          ([], pos0,
            { node0 with
              energy := node0.energy + sunAmount
              diet := ⟨node0.diet.x, min 3 (node0.diet.y + 1), node0.diet.z⟩ }, 1)
        else ([], pos0, node0, 1)
      else if gene = GENE_CHECK_FORWARD then
        let stepIfRelative := node0.genome.getD ((node0.currentGene + 1) % GENOME_LENGTH) 0
        let stepIfActive := node0.genome.getD ((node0.currentGene + 2) % GENOME_LENGTH) 0
        let stepIfFood := node0.genome.getD ((node0.currentGene + 3) % GENOME_LENGTH) 0
        let stepIfAir := node0.genome.getD ((node0.currentGene + 4) % GENOME_LENGTH) 0
        let stepIfWall := node0.genome.getD ((node0.currentGene + 5) % GENOME_LENGTH) 0
        let coordsInFront := pos0 + directionToVec2 node0.direction
        let nodeInFront := getNodeAt w coordsInFront
        if nodeInFront.kind = KIND_ACTIVE then
          if areRelatives w node0.genome nodeInFront.genome then
            ([], pos0, node0, stepIfRelative)
          else ([], pos0, node0, stepIfActive)
        else if nodeInFront.kind = KIND_FOOD then ([], pos0, node0, stepIfFood)
        else if nodeInFront.kind = KIND_AIR then ([], pos0, node0, stepIfAir)
        else ([], pos0, node0, stepIfWall)
      else if gene = GENE_CHECK_ENERGY then
        let threshold := node0.genome.getD ((node0.currentGene + 1) % GENOME_LENGTH) 0
        let stepIfMore := node0.genome.getD ((node0.currentGene + 2) % GENOME_LENGTH) 0
        let stepIfLess := node0.genome.getD ((node0.currentGene + 2) % GENOME_LENGTH) 0
        if node0.energy > (threshold : ℤ) then ([], pos0, node0, stepIfMore)
        else ([], pos0, node0, stepIfLess)
      else if gene = GENE_CONVERT_MINERALS then
        if node0.minerals > 0 then
          ([], pos0,
            { node0 with
              energy := node0.energy + node0.minerals * w.config.MINERAL_ENERGY
              minerals := 0
              diet := ⟨node0.diet.x, node0.diet.y, min 3 (node0.diet.z + 1)⟩ }, 1)
        else ([], pos0, node0, 1)
      else if gene < GENOME_LENGTH ∧ gene ≠ 0 then ([], pos0, node0, gene)
      else ([], pos0, node0, 1)

/-- The post-instruction bookkeeping applied to the node a task writes:
advance the current gene, deduct the upkeep under the energy cap, gain
minerals under the mineral cap, and age by one. -/
def postNode (cfg : Config) (pos : Vec2) (node1 : Node) (genomeStep : ℕ) : Node :=
  let node2 := { node1 with
    currentGene := (node1.currentGene + genomeStep) % GENOME_LENGTH }
  { node2 with
    energy := min cfg.NODE_MAX_ENERGY (node2.energy - 1)
    minerals := min cfg.NODE_MAX_MINERALS
      (node2.minerals + getMineralAmountAt cfg pos.y)
    age := node2.age + 1 }

/-- The tail of stepActive after the switch: write the updated node at
its (new) position, erase the old position if the node moved, and
overwrite with FOOD if the node died of exhaustion or age. -/
def finishActive (cfg : Config) (pos0 : Vec2)
    (branch : List (Vec2 × Node) × Vec2 × Node × ℕ) : List (Vec2 × Node) :=
  match branch with
  | (preWrites, pos, node1, genomeStep) =>
    let node3 := postNode cfg pos node1 genomeStep
    preWrites ++ [(pos, node3)] ++
      (if pos ≠ pos0 then [(pos0, NODE_AIR)] else []) ++
      (if node3.energy ≤ 0 ∨ node3.age > cfg.NODE_MAX_AGE then
        [(pos, NODE_FOOD)] else [])

def stepActive (w : World) (pos0 : Vec2) (node0 : Node) : List (Vec2 × Node) :=
  if isEaten w pos0 then [(pos0, NODE_AIR)]
  else finishActive w.config pos0 (stepActiveBranch w pos0 node0)

/-- The per-cell dispatch of the compute entry point: air and wall cells
produce no writes, food cells run stepFood, active cells run stepActive. -/
def taskWrites (w : World) (pos : Vec2) : List (Vec2 × Node) :=
  let node := getNodeAt w pos
  if node.kind = KIND_FOOD then stepFood w pos node
  else if node.kind = KIND_ACTIVE then stepActive w pos node
  else []

def allPositions (w : World) : List Vec2 :=
  (List.range w.config.WORLD_SIZE.x.toNat).flatMap fun x =>
    (List.range w.config.WORLD_SIZE.y.toNat).map fun y => ⟨(x : ℤ), (y : ℤ)⟩

/-- Application of one setNodeAt write to the next buffer: writes with an
invalid y are dropped, valid writes update the normalized index. -/
def applyWrite (cfg : Config) (cur : ℤ → Node) (pw : Vec2 × Node) : ℤ → Node :=
  fun i =>
    if isValidPos cfg pw.1 ∧ getIndexForPos cfg pw.1 = i then pw.2 else cur i

/-- One synchronous tick: the driver copies the next buffer into the last
buffer, every grid cell reads the copy and the tasks' writes land in the
next buffer.  Tasks of one tick write to disjoint positions whenever the
arbitration discipline works, in which case the fold order is
irrelevant. -/
def stepWorld (w : World) : World :=
  let writes := (allPositions w).flatMap fun p => taskWrites w p
  { w with lastWorld := writes.foldl (applyWrite w.config) w.lastWorld }

/-! Concrete worlds used by the scenario theorems, the counterexamples
and the witnesses. -/

/-- A 3 by 3 configuration: max age and energy 255, reproduction cost 1,
mutation rate 100 percent. -/
def cfg3 : Config := ⟨⟨3, 3⟩, 255, 255, 15, 5, 5, 2, 0, 2, 3, 1, 100⟩

/-- A 3 by 3 world with one FOOD cell at (1, 0) and air elsewhere. -/
def foodWorld : World :=
  { config := cfg3
    lastWorld := fun i => if i = 3 then NODE_FOOD else NODE_AIR
    rand := fun _ => 1 / 2 }

/-- A 3 by 3 world with one FOOD cell on the bottom row, at (1, 2). -/
def bottomWorld : World :=
  { config := cfg3
    lastWorld := fun i => if i = 5 then NODE_FOOD else NODE_AIR
    rand := fun _ => 1 / 2 }

/-- A genome whose first gene is REPRODUCE_FORWARD. -/
def genomeR : List ℕ := 68 :: List.replicate 63 0

/-- Parent at (0, 1) facing east, energy 21, color 7. -/
def parentA : Node := ⟨KIND_ACTIVE, 0, 0, 21, 0, ⟨0, 0, 0⟩, 7, 0, genomeR⟩

/-- Parent at (2, 1) facing west, energy 11, color 7. -/
def parentB : Node := ⟨KIND_ACTIVE, 2, 0, 11, 0, ⟨0, 0, 0⟩, 7, 0, genomeR⟩

/-- A 3 by 3 world with two active cells both about to reproduce into
the shared empty middle cell (1, 1). -/
def reproWorld : World :=
  { config := cfg3
    lastWorld := fun i => if i = 1 then parentA else if i = 7 then parentB else NODE_AIR
    rand := fun _ => 1 / 2 }

/-- The child parentA spawns at (1, 1): energy (21 - 1) / 2 = 10. -/
def childA : Node := ⟨KIND_ACTIVE, 0, 0, 10, 0, ⟨0, 0, 0⟩, 0, 0, genomeR⟩

/-- The child parentB spawns at (1, 1): energy (11 - 1) / 2 = 5. -/
def childB : Node := ⟨KIND_ACTIVE, 2, 0, 5, 0, ⟨0, 0, 0⟩, 0, 0, genomeR⟩

/-- Unfolding characterization of canMove: the target must decode to AIR
and every one of the four scanned neighbours of the target other than the
origin that either is an active cell whose current gene is MOVE_FORWARD
and whose direction points back at the target, or is a FOOD cell directly
above the target, must have strictly less energy than the actor. -/
theorem canMove_iff (w : World) (node : Node) (fromPos toPos : Vec2) :
    canMove w node fromPos toPos = true ↔
      ((getNodeAt w toPos).kind = KIND_AIR ∧
        ∀ d : ℕ, d < 4 → toPos + directionToVec2 (d : ℤ) ≠ fromPos →
          (((getNodeAt w (toPos + directionToVec2 (d : ℤ))).kind = KIND_ACTIVE ∧
             (getNodeAt w (toPos + directionToVec2 (d : ℤ))).genome.getD
               (getNodeAt w (toPos + directionToVec2 (d : ℤ))).currentGene 0 =
                 GENE_MOVE_FORWARD ∧
             ((getNodeAt w (toPos + directionToVec2 (d : ℤ))).direction + 2).tmod 4 =
               (d : ℤ)) ∨
           ((getNodeAt w (toPos + directionToVec2 (d : ℤ))).kind = KIND_FOOD ∧ d = 1)) →
            node.energy > (getNodeAt w (toPos + directionToVec2 (d : ℤ))).energy) := by
  unfold canMove
  by_cases hk : (getNodeAt w toPos).kind > KIND_AIR
  · rw [if_pos hk]
    simp only [KIND_AIR] at hk ⊢
    constructor
    · intro h
      exact absurd h (by simp)
    · rintro ⟨h0, -⟩
      omega
  · rw [if_neg hk]
    have hk0 : (getNodeAt w toPos).kind = KIND_AIR := by
      simp only [KIND_AIR] at hk ⊢
      omega
    rw [List.all_eq_true]
    constructor
    · intro hall
      refine ⟨hk0, ?_⟩
      intro d hd hne hthreat
      have hd2 := hall d (List.mem_range.mpr hd)
      dsimp only at hd2
      rw [if_neg hne] at hd2
      rcases hthreat with ⟨hA, hI, hD⟩ | ⟨hF, hd1⟩
      · rw [if_pos hA, if_neg (not_not_intro hI), if_neg (not_not_intro hD)] at hd2
        exact of_decide_eq_true hd2
      · rw [if_neg (by simp [hF, KIND_FOOD, KIND_ACTIVE]), if_pos hF,
          if_neg (not_not_intro hd1)] at hd2
        exact of_decide_eq_true hd2
    · rintro ⟨-, hforall⟩
      intro d hmem
      have hd : d < 4 := List.mem_range.mp hmem
      dsimp only
      by_cases hne : toPos + directionToVec2 (d : ℤ) = fromPos
      · rw [if_pos hne]
      · rw [if_neg hne]
        by_cases hA : (getNodeAt w (toPos + directionToVec2 (d : ℤ))).kind = KIND_ACTIVE
        · rw [if_pos hA]
          by_cases hI : (getNodeAt w (toPos + directionToVec2 (d : ℤ))).genome.getD
              (getNodeAt w (toPos + directionToVec2 (d : ℤ))).currentGene 0 ≠
                GENE_MOVE_FORWARD
          · rw [if_pos hI]
          · rw [if_neg hI]
            push_neg at hI
            by_cases hD : ((getNodeAt w (toPos + directionToVec2 (d : ℤ))).direction +
                2).tmod 4 ≠ (d : ℤ)
            · rw [if_pos hD]
            · rw [if_neg hD]
              push_neg at hD
              exact decide_eq_true (hforall d hd hne (Or.inl ⟨hA, hI, hD⟩))
        · rw [if_neg hA]
          by_cases hF : (getNodeAt w (toPos + directionToVec2 (d : ℤ))).kind = KIND_FOOD
          · rw [if_pos hF]
            by_cases hd1 : d ≠ 1
            · rw [if_pos hd1]
            · rw [if_neg hd1]
              push_neg at hd1
              exact decide_eq_true (hforall d hd hne (Or.inr ⟨hF, hd1⟩))
          · rw [if_neg hF]

/-- A task that moves into r (an active MOVE_FORWARD cell with a valid
direction, or a falling FOOD cell) occupies one of the four scanned
neighbour slots of r and satisfies the rival pattern canMove looks for
there. -/
theorem threat_of_task (w : World) (p r : Vec2) (n : Node) (h : getNodeAt w p = n)
    (t : (n.kind = KIND_ACTIVE ∧ n.genome.getD n.currentGene 0 = GENE_MOVE_FORWARD ∧
            0 ≤ n.direction ∧ n.direction < 4 ∧ r = p + directionToVec2 n.direction) ∨
         (n.kind = KIND_FOOD ∧ r = p + (⟨0, 1⟩ : Vec2))) :
    ∃ d : ℕ, d < 4 ∧ p = r + directionToVec2 (d : ℤ) ∧
      ((n.kind = KIND_ACTIVE ∧ n.genome.getD n.currentGene 0 = GENE_MOVE_FORWARD ∧
          (n.direction + 2).tmod 4 = (d : ℤ)) ∨
        (n.kind = KIND_FOOD ∧ d = 1)) := by
  rcases t with ⟨hA, hI, hd0, hd4, hr⟩ | ⟨hF, hr⟩
  · have hcases : n.direction = 0 ∨ n.direction = 1 ∨ n.direction = 2 ∨
        n.direction = 3 := by omega
    subst hr
    obtain ⟨px, py⟩ := p
    rcases hcases with hv | hv | hv | hv <;> rw [hv]
    · exact ⟨2, by omega,
        by rw [show directionToVec2 ((2 : ℕ) : ℤ) = ⟨-1, 0⟩ from by decide,
             show directionToVec2 (0 : ℤ) = ⟨1, 0⟩ from by decide]
           simp [Vec2.add_def],
        Or.inl ⟨hA, hI, by decide⟩⟩
    · exact ⟨3, by omega,
        by rw [show directionToVec2 ((3 : ℕ) : ℤ) = ⟨0, 1⟩ from by decide,
             show directionToVec2 (1 : ℤ) = ⟨0, -1⟩ from by decide]
           simp [Vec2.add_def],
        Or.inl ⟨hA, hI, by decide⟩⟩
    · exact ⟨0, by omega,
        by rw [show directionToVec2 ((0 : ℕ) : ℤ) = ⟨1, 0⟩ from by decide,
             show directionToVec2 (2 : ℤ) = ⟨-1, 0⟩ from by decide]
           simp [Vec2.add_def],
        Or.inl ⟨hA, hI, by decide⟩⟩
    · exact ⟨1, by omega,
        by rw [show directionToVec2 ((1 : ℕ) : ℤ) = ⟨0, -1⟩ from by decide,
             show directionToVec2 (3 : ℤ) = ⟨0, 1⟩ from by decide]
           simp [Vec2.add_def],
        Or.inl ⟨hA, hI, by decide⟩⟩
  · subst hr
    obtain ⟨px, py⟩ := p
    exact ⟨1, by omega,
      by rw [show directionToVec2 ((1 : ℕ) : ℤ) = ⟨0, -1⟩ from by decide]
         simp [Vec2.add_def],
      Or.inr ⟨hF, rfl⟩⟩

/-- Claim C1, amended.  Restricted to the tasks the arbitration rules
actually inspect, the guarantee holds: two distinct source cells that
are each an active cell executing MOVE_FORWARD toward its target or a
FOOD cell falling one row south, and that both pass canMove toward
their targets in the same snapshot, never have the same target, so
their neighbour writes never collide.  Reproduction writes are not
covered: canMove only checks rivals whose current gene is MOVE_FORWARD,
so two reproducing cells can write distinct children to one position
(see the counterexample). -/
theorem c1_no_double_claim (w : World) (p1 p2 r1 r2 : Vec2) (n1 n2 : Node)
    (hne : p1 ≠ p2) (h1 : getNodeAt w p1 = n1) (h2 : getNodeAt w p2 = n2)
    (t1 : (n1.kind = KIND_ACTIVE ∧ n1.genome.getD n1.currentGene 0 = GENE_MOVE_FORWARD ∧
             0 ≤ n1.direction ∧ n1.direction < 4 ∧ r1 = p1 + directionToVec2 n1.direction) ∨
          (n1.kind = KIND_FOOD ∧ r1 = p1 + (⟨0, 1⟩ : Vec2)))
    (t2 : (n2.kind = KIND_ACTIVE ∧ n2.genome.getD n2.currentGene 0 = GENE_MOVE_FORWARD ∧
             0 ≤ n2.direction ∧ n2.direction < 4 ∧ r2 = p2 + directionToVec2 n2.direction) ∨
          (n2.kind = KIND_FOOD ∧ r2 = p2 + (⟨0, 1⟩ : Vec2)))
    (hc1 : canMove w n1 p1 r1 = true) (hc2 : canMove w n2 p2 r2 = true) :
    r1 ≠ r2 := by
  intro heq
  subst heq
  obtain ⟨d2, hd2lt, hp2, hth2⟩ := threat_of_task w p2 r1 n2 h2 t2
  obtain ⟨d1, hd1lt, hp1, hth1⟩ := threat_of_task w p1 r1 n1 h1 t1
  have hg1 : n1.energy > n2.energy := by
    have happ := (canMove_iff w n1 p1 r1).mp hc1
    have hnef : r1 + directionToVec2 (d2 : ℤ) ≠ p1 := by
      rw [← hp2]
      exact Ne.symm hne
    have hx := happ.2 d2 hd2lt hnef
    rw [← hp2, h2] at hx
    exact hx hth2
  have hg2 : n2.energy > n1.energy := by
    have happ := (canMove_iff w n2 p2 r1).mp hc2
    have hnef : r1 + directionToVec2 (d1 : ℤ) ≠ p2 := by
      rw [← hp1]
      exact hne
    have hx := happ.2 d1 hd1lt hnef
    rw [← hp1, h1] at hx
    exact hx hth1
  omega

/-- Claim C1, counterexample.  In reproWorld the two active cells at
(0, 1) and (2, 1) both execute REPRODUCE_FORWARD toward the shared empty
cell (1, 1): canMove ignores rivals whose current gene is not
MOVE_FORWARD, so both tasks pass arbitration and write their children,
two distinct values, to the same valid position of the next buffer. -/
theorem c1_counterexample :
    (⟨0, 1⟩ : Vec2) ≠ (⟨2, 1⟩ : Vec2) ∧
      ((⟨1, 1⟩ : Vec2), childA) ∈ taskWrites reproWorld ⟨0, 1⟩ ∧
      ((⟨1, 1⟩ : Vec2), childB) ∈ taskWrites reproWorld ⟨2, 1⟩ ∧
      isValidPos reproWorld.config ⟨1, 1⟩ = true ∧
      childA ≠ childB := by
  decide

/-- A genome whose first gene is MOVE_FORWARD. -/
def moveGenome : List ℕ := 64 :: List.replicate 63 0

/-- Mover at (0, 0) facing east, about to move to (1, 0). -/
def moverA : Node := ⟨KIND_ACTIVE, 0, 0, 9, 0, ⟨0, 0, 0⟩, 0, 0, moveGenome⟩

/-- Mover at (2, 0) facing south, about to move to (2, 1). -/
def moverB : Node := ⟨KIND_ACTIVE, 3, 0, 9, 0, ⟨0, 0, 0⟩, 0, 0, moveGenome⟩

/-- A 3 by 3 world with the two movers. -/
def moveWorld : World :=
  { config := cfg3
    lastWorld := fun i => if i = 0 then moverA else if i = 6 then moverB else NODE_AIR
    rand := fun _ => 1 / 2 }

/-- Witness for c1_no_double_claim: two concrete movers that both pass
canMove have distinct targets. -/
theorem c1_witness : (⟨1, 0⟩ : Vec2) ≠ (⟨2, 1⟩ : Vec2) :=
  c1_no_double_claim moveWorld ⟨0, 0⟩ ⟨2, 0⟩ ⟨1, 0⟩ ⟨2, 1⟩ moverA moverB
    (by decide) (by decide) (by decide) (by decide) (by decide)
    (by decide) (by decide)

/-- Claim C2.  canMove(actor, from, to) returns true exactly when the
snapshot cell at to decodes to AIR and, for each of the four neighbours
of to other than from, a neighbour that is ACTIVE with current gene
MOVE_FORWARD and direction pointing back at to, or that is FOOD directly
above to, has strictly less energy than the actor; on equal energies
canMove is false. -/
theorem c2_canMove_spec (w : World) (node : Node) (fromPos toPos : Vec2) :
    canMove w node fromPos toPos = true ↔
      ((getNodeAt w toPos).kind = KIND_AIR ∧
        ∀ d : ℕ, d < 4 → toPos + directionToVec2 (d : ℤ) ≠ fromPos →
          (((getNodeAt w (toPos + directionToVec2 (d : ℤ))).kind = KIND_ACTIVE ∧
             (getNodeAt w (toPos + directionToVec2 (d : ℤ))).genome.getD
               (getNodeAt w (toPos + directionToVec2 (d : ℤ))).currentGene 0 =
                 GENE_MOVE_FORWARD ∧
             ((getNodeAt w (toPos + directionToVec2 (d : ℤ))).direction + 2).tmod 4 =
               (d : ℤ)) ∨
           ((getNodeAt w (toPos + directionToVec2 (d : ℤ))).kind = KIND_FOOD ∧ d = 1)) →
            node.energy > (getNodeAt w (toPos + directionToVec2 (d : ℤ))).energy) :=
  canMove_iff w node fromPos toPos

/-- Appending helper: finishActive on a branch that kept its position
writes the branch writes, then the bookkept node at the position, then
the death write when the bookkept node ran out of energy or age. -/
theorem finishActive_eq (cfg : Config) (pos0 : Vec2) (pre : List (Vec2 × Node))
    (node1 : Node) (genomeStep : ℕ) :
    finishActive cfg pos0 (pre, pos0, node1, genomeStep) =
      pre ++ (pos0, postNode cfg pos0 node1 genomeStep) ::
        (if (postNode cfg pos0 node1 genomeStep).energy ≤ 0 ∨
            (postNode cfg pos0 node1 genomeStep).age > cfg.NODE_MAX_AGE then
          [(pos0, NODE_FOOD)] else []) := by
  unfold finishActive
  simp

theorem postNode_energy (cfg : Config) (pos : Vec2) (node1 : Node) (s : ℕ) :
    (postNode cfg pos node1 s).energy = min cfg.NODE_MAX_ENERGY (node1.energy - 1) := rfl

theorem postNode_currentGene (cfg : Config) (pos : Vec2) (node1 : Node) (s : ℕ) :
    (postNode cfg pos node1 s).currentGene = (node1.currentGene + s) % GENOME_LENGTH := rfl

/-- Claim C4, amended.  When an active cell executes REPRODUCE_FORWARD
or REPRODUCE_BACKWARD with half = (energy - REPRODUCTION_COST) / 2
positive and canMove holding, it writes a child at childPos with energy
half, the parent's direction, age 0, currentGene 0 (not getArg(1) mod
64), and the parent's possibly mutated genome, deducts half from the
parent's energy, and advances by 1; on failure no child is written, no
energy is deducted, and it also advances by 1 (the code never reads
branch arguments for reproduction). -/
theorem c4_reproduction (w : World) (pos : Vec2) (node : Node)
    (hnb : isEaten w pos = false)
    (hg : node.genome.getD node.currentGene 0 = GENE_REPRODUCE_FORWARD ∨
          node.genome.getD node.currentGene 0 = GENE_REPRODUCE_BACKWARD) :
    ∀ childPos half,
      childPos = pos + directionToVec2
        (if node.genome.getD node.currentGene 0 = GENE_REPRODUCE_FORWARD then
          node.direction else node.direction + 2) →
      half = (node.energy - w.config.REPRODUCTION_COST).tdiv 2 →
      if 0 < half ∧ canMove w node pos childPos = true then
        ∃ p2 rest, stepActive w pos node =
            (childPos, ⟨KIND_ACTIVE, node.direction, 0, half, 0, ⟨0, 0, 0⟩, 0, 0,
              mutateGenome w node.genome childPos⟩) :: (pos, p2) :: rest ∧
          p2.energy = min w.config.NODE_MAX_ENERGY (node.energy - half - 1) ∧
          p2.currentGene = (node.currentGene + 1) % GENOME_LENGTH ∧
          ∀ q ∈ rest, q.1 = pos
      else
        ∃ p2 rest, stepActive w pos node = (pos, p2) :: rest ∧
          p2.energy = min w.config.NODE_MAX_ENERGY (node.energy - 1) ∧
          p2.currentGene = (node.currentGene + 1) % GENOME_LENGTH ∧
          ∀ q ∈ rest, q.1 = pos := by
  intro childPos half hcp hh
  have hstep : stepActive w pos node = finishActive w.config pos (stepActiveBranch w pos node) := by
    unfold stepActive
    rw [if_neg (by simp [hnb])]
  have hgeq : ∀ hbr0 : stepActiveBranch w pos node =
      ([(childPos, ⟨KIND_ACTIVE, node.direction, 0, half, 0, ⟨0, 0, 0⟩, 0, 0,
          mutateGenome w node.genome childPos⟩)], pos,
        { node with energy := node.energy - half }, 1),
      0 < half ∧ canMove w node pos childPos = true →
      ∃ p2 rest, stepActive w pos node =
          (childPos, ⟨KIND_ACTIVE, node.direction, 0, half, 0, ⟨0, 0, 0⟩, 0, 0,
            mutateGenome w node.genome childPos⟩) :: (pos, p2) :: rest ∧
        p2.energy = min w.config.NODE_MAX_ENERGY (node.energy - half - 1) ∧
        p2.currentGene = (node.currentGene + 1) % GENOME_LENGTH ∧
        ∀ q ∈ rest, q.1 = pos := by
    intro hbr0 hs
    simp only [hstep, hbr0, finishActive_eq, List.singleton_append]
    refine ⟨_, _, rfl, ?_, ?_, ?_⟩
    · rw [postNode_energy]
    · rw [postNode_currentGene]
    · intro q hq
      split at hq <;> simp_all
  have hfail : ∀ hbr0 : stepActiveBranch w pos node = ([], pos, node, 1),
      ∃ p2 rest, stepActive w pos node = (pos, p2) :: rest ∧
        p2.energy = min w.config.NODE_MAX_ENERGY (node.energy - 1) ∧
        p2.currentGene = (node.currentGene + 1) % GENOME_LENGTH ∧
        ∀ q ∈ rest, q.1 = pos := by
    intro hbr0
    simp only [hstep, hbr0, finishActive_eq, List.nil_append]
    refine ⟨_, _, rfl, ?_, ?_, ?_⟩
    · rw [postNode_energy]
    · rw [postNode_currentGene]
    · intro q hq
      split at hq <;> simp_all
  rcases hg with hg | hg
  · rw [if_pos hg] at hcp
    by_cases hs : 0 < half ∧ canMove w node pos childPos = true
    · rw [if_pos hs]
      refine hgeq ?_ hs
      have hspawn : spawnChild w pos node childPos =
          ([(childPos, ⟨KIND_ACTIVE, node.direction, 0, half, 0, ⟨0, 0, 0⟩, 0, 0,
            mutateGenome w node.genome childPos⟩)], half) := by
        unfold spawnChild
        rw [← hh]
        rw [if_neg (by omega), if_neg (not_not_intro hs.2)]
      unfold stepActiveBranch
      rw [if_neg (by rw [hg]; decide), if_neg (by rw [hg]; decide),
        if_neg (by rw [hg]; decide), if_neg (by rw [hg]; decide), if_pos hg]
      simp only [← hcp]
      rw [hspawn]
      rw [if_pos hs.1]
    · rw [if_neg hs]
      refine hfail ?_
      have hspawn : spawnChild w pos node childPos = ([], 0) := by
        unfold spawnChild
        rw [← hh]
        by_cases h1 : half ≤ 0
        · rw [if_pos h1]
        · rw [if_neg h1]
          have h2 : ¬ canMove w node pos childPos = true := fun hc => hs ⟨by omega, hc⟩
          rw [if_pos h2]
      unfold stepActiveBranch
      rw [if_neg (by rw [hg]; decide), if_neg (by rw [hg]; decide),
        if_neg (by rw [hg]; decide), if_neg (by rw [hg]; decide), if_pos hg]
      simp only [← hcp]
      rw [hspawn]
      rw [if_neg (by simp)]
  · rw [if_neg (by rw [hg]; decide)] at hcp
    by_cases hs : 0 < half ∧ canMove w node pos childPos = true
    · rw [if_pos hs]
      refine hgeq ?_ hs
      have hspawn : spawnChild w pos node childPos =
          ([(childPos, ⟨KIND_ACTIVE, node.direction, 0, half, 0, ⟨0, 0, 0⟩, 0, 0,
            mutateGenome w node.genome childPos⟩)], half) := by
        unfold spawnChild
        rw [← hh]
        rw [if_neg (by omega), if_neg (not_not_intro hs.2)]
      unfold stepActiveBranch
      rw [if_neg (by rw [hg]; decide), if_neg (by rw [hg]; decide),
        if_neg (by rw [hg]; decide), if_neg (by rw [hg]; decide),
        if_neg (by rw [hg]; decide), if_pos hg]
      simp only [← hcp]
      rw [hspawn]
      rw [if_pos hs.1]
    · rw [if_neg hs]
      refine hfail ?_
      have hspawn : spawnChild w pos node childPos = ([], 0) := by
        unfold spawnChild
        rw [← hh]
        by_cases h1 : half ≤ 0
        · rw [if_pos h1]
        · rw [if_neg h1]
          have h2 : ¬ canMove w node pos childPos = true := fun hc => hs ⟨by omega, hc⟩
          rw [if_pos h2]
      unfold stepActiveBranch
      rw [if_neg (by rw [hg]; decide), if_neg (by rw [hg]; decide),
        if_neg (by rw [hg]; decide), if_neg (by rw [hg]; decide),
        if_neg (by rw [hg]; decide), if_pos hg]
      simp only [← hcp]
      rw [hspawn]
      rw [if_neg (by simp)]

/-- A genome with REPRODUCE_FORWARD at slot 0 and branch arguments 5, 7,
9 in slots 1 to 3. -/
def genome4 : List ℕ := 68 :: 5 :: 7 :: 9 :: List.replicate 60 0

/-- A reproducing parent at (0, 1) facing east with energy 21. -/
def parent4 : Node := ⟨KIND_ACTIVE, 0, 0, 21, 0, ⟨0, 0, 0⟩, 0, 0, genome4⟩

/-- A 3 by 3 world holding only parent4. -/
def c4World : World :=
  { config := cfg3
    lastWorld := fun i => if i = 1 then parent4 else NODE_AIR
    rand := fun _ => 1 / 2 }

/-- The child parent4 spawns: energy (21 - 1) / 2 = 10, currentGene 0. -/
def child4 : Node := ⟨KIND_ACTIVE, 0, 0, 10, 0, ⟨0, 0, 0⟩, 0, 0, genome4⟩

/-- parent4 after its reproduction tick: energy 21 - 10 - 1 = 10, age 1,
currentGene advanced by 1. -/
def parent4post : Node := ⟨KIND_ACTIVE, 0, 1, 10, 0, ⟨0, 0, 0⟩, 0, 1, genome4⟩

/-- Claim C4, counterexample.  The claim predicts the child starts at
currentGene getArg(1) mod 64 = 5 and the parent advances by
getArg(2) = 7; the code writes the child with currentGene 0 and advances
the parent by 1. -/
theorem c4_counterexample :
    stepActive c4World ⟨0, 1⟩ parent4 =
      [((⟨1, 1⟩ : Vec2), child4), ((⟨0, 1⟩ : Vec2), parent4post)] ∧
    parent4.genome.getD ((parent4.currentGene + 1) % GENOME_LENGTH) 0 % 64 = 5 ∧
    child4.currentGene = 0 ∧ child4.currentGene ≠ 5 ∧
    (parent4.currentGene +
      parent4.genome.getD ((parent4.currentGene + 2) % GENOME_LENGTH) 0) %
        GENOME_LENGTH = 7 ∧
    parent4post.currentGene = 1 ∧ parent4post.currentGene ≠ 7 := by
  decide

/-- Witness for c4_reproduction at the concrete reproduction scenario. -/
theorem c4_witness :
    if 0 < (10 : ℤ) ∧ canMove c4World parent4 ⟨0, 1⟩ ⟨1, 1⟩ = true then
      ∃ p2 rest, stepActive c4World ⟨0, 1⟩ parent4 =
          ((⟨1, 1⟩ : Vec2), ⟨KIND_ACTIVE, parent4.direction, 0, 10, 0, ⟨0, 0, 0⟩, 0, 0,
            mutateGenome c4World parent4.genome ⟨1, 1⟩⟩) :: ((⟨0, 1⟩ : Vec2), p2) :: rest ∧
        p2.energy = min c4World.config.NODE_MAX_ENERGY (parent4.energy - 10 - 1) ∧
        p2.currentGene = (parent4.currentGene + 1) % GENOME_LENGTH ∧
        ∀ q ∈ rest, q.1 = (⟨0, 1⟩ : Vec2)
    else
      ∃ p2 rest, stepActive c4World ⟨0, 1⟩ parent4 = ((⟨0, 1⟩ : Vec2), p2) :: rest ∧
        p2.energy = min c4World.config.NODE_MAX_ENERGY (parent4.energy - 1) ∧
        p2.currentGene = (parent4.currentGene + 1) % GENOME_LENGTH ∧
        ∀ q ∈ rest, q.1 = (⟨0, 1⟩ : Vec2) :=
  c4_reproduction c4World ⟨0, 1⟩ parent4 (by decide) (Or.inl (by decide))
    ⟨1, 1⟩ 10 (by decide) (by decide)

/-- Claim C5, evaluation of the mutation code at a failing input.  With
MUTATION_RATE = 100 (mutation should be certain) and the draw 1/2, which
is strictly below MUTATION_RATE / 100, the cited mutateGenome leaves the
genome unchanged, because it mutates only when the draw is greater than
or equal to the threshold; and the spawned child has color 0 although
the parent's color is 7, because spawnChild hardcodes the child color. -/
theorem c5_mutation_eval :
    ((1 : ℚ) / 2 < reproWorld.config.MUTATION_RATE / 100) ∧
    reproWorld.rand ⟨1, 1⟩ = 1 / 2 ∧
    mutateGenome reproWorld parentA.genome ⟨1, 1⟩ = parentA.genome ∧
    (spawnChild reproWorld ⟨0, 1⟩ parentA ⟨1, 1⟩).1 = [(⟨1, 1⟩, childA)] ∧
    parentA.color = 7 ∧ childA.color = 0 := by
  decide

/-- Claim C6.  For an active cell executing CHECK_ENERGY the gene
advance read for both branches is getArg(2), so the new currentGene is
(currentGene + getArg(2)) mod 64 whether the energy test succeeds or
fails. -/
theorem c6_check_energy (w : World) (pos : Vec2) (node : Node)
    (hnb : isEaten w pos = false)
    (hg : node.genome.getD node.currentGene 0 = GENE_CHECK_ENERGY) :
    ∃ p2 rest, stepActive w pos node = (pos, p2) :: rest ∧
      p2.currentGene = (node.currentGene +
        node.genome.getD ((node.currentGene + 2) % GENOME_LENGTH) 0) % GENOME_LENGTH ∧
      ∀ q ∈ rest, q.1 = pos := by
  have hstep : stepActive w pos node =
      finishActive w.config pos (stepActiveBranch w pos node) := by
    unfold stepActive
    rw [if_neg (by simp [hnb])]
  have hbr : stepActiveBranch w pos node =
      ([], pos, node, node.genome.getD ((node.currentGene + 2) % GENOME_LENGTH) 0) := by
    unfold stepActiveBranch
    rw [if_neg (by rw [hg]; decide), if_neg (by rw [hg]; decide),
      if_neg (by rw [hg]; decide), if_neg (by rw [hg]; decide),
      if_neg (by rw [hg]; decide), if_neg (by rw [hg]; decide),
      if_neg (by rw [hg]; decide), if_neg (by rw [hg]; decide), if_pos hg]
    dsimp only
    split <;> rfl
  simp only [hstep, hbr, finishActive_eq, List.nil_append]
  refine ⟨_, _, rfl, ?_, ?_⟩
  · rw [postNode_currentGene]
  · intro q hq
    split at hq <;> simp_all

/-- A 1 by 1 configuration. -/
def cfg1 : Config := ⟨⟨1, 1⟩, 255, 255, 15, 5, 5, 2, 0, 2, 3, 1, 100⟩

/-- A genome with CHECK_ENERGY at slot 0, threshold 50 and both branch
arguments in slot 2 (value 9). -/
def genome6 : List ℕ := 72 :: 50 :: 9 :: List.replicate 61 0

/-- The checking cell. -/
def node6 : Node := ⟨KIND_ACTIVE, 0, 0, 100, 0, ⟨0, 0, 0⟩, 0, 0, genome6⟩

/-- A 1 by 1 world holding only node6. -/
def world6 : World :=
  { config := cfg1
    lastWorld := fun i => if i = 0 then node6 else NODE_AIR
    rand := fun _ => 1 / 2 }

/-- Witness for c6_check_energy at a concrete checking cell. -/
theorem c6_witness :
    ∃ p2 rest, stepActive world6 ⟨0, 0⟩ node6 = ((⟨0, 0⟩ : Vec2), p2) :: rest ∧
      p2.currentGene = (node6.currentGene +
        node6.genome.getD ((node6.currentGene + 2) % GENOME_LENGTH) 0) % GENOME_LENGTH ∧
      ∀ q ∈ rest, q.1 = (⟨0, 0⟩ : Vec2) :=
  c6_check_energy world6 ⟨0, 0⟩ node6 (by decide) (by decide)

/-- Claim C7, amended.  A FOOD cell that is not eaten moves one row
south exactly when canMove toward the cell below holds; in the 3 by 3
scenario the food reaches (1, 2) after two ticks leaving air behind; and
a FOOD cell on the bottom row stays FOOD (the cell below it reads as the
WALL sentinel, so canMove fails), it is not replaced by air. -/
theorem c7_food_falls :
    (∀ (w : World) (pos : Vec2) (node : Node), isEaten w pos = false →
        canMove w node pos (pos + (⟨0, 1⟩ : Vec2)) = true →
        stepFood w pos node = [(pos + (⟨0, 1⟩ : Vec2), node), (pos, NODE_AIR)]) ∧
    getNodeAt (stepWorld (stepWorld foodWorld)) ⟨1, 2⟩ = NODE_FOOD ∧
    getNodeAt (stepWorld (stepWorld foodWorld)) ⟨1, 1⟩ = NODE_AIR ∧
    getNodeAt (stepWorld (stepWorld foodWorld)) ⟨1, 0⟩ = NODE_AIR ∧
    getNodeAt (stepWorld bottomWorld) ⟨1, 2⟩ = NODE_FOOD := by
  refine ⟨?_, by decide, by decide, by decide, by decide⟩
  intro w pos node hnb hcm
  unfold stepFood
  rw [if_neg (by simp [hnb]), if_pos hcm]

/-- Claim C7, counterexample.  The claim says a FOOD cell that reaches
the bottom row is replaced by air; in bottomWorld the FOOD cell on the
bottom row is still FOOD after a tick. -/
theorem c7_counterexample :
    (getNodeAt bottomWorld ⟨1, 2⟩).kind = KIND_FOOD ∧
    bottomWorld.config.WORLD_SIZE.y = 3 ∧
    getNodeAt (stepWorld bottomWorld) ⟨1, 2⟩ = NODE_FOOD ∧
    getNodeAt (stepWorld bottomWorld) ⟨1, 2⟩ ≠ NODE_AIR := by
  decide

/-- Witness for the conditional movement law of c7_food_falls. -/
theorem c7_witness :
    stepFood foodWorld ⟨1, 0⟩ NODE_FOOD =
      [(⟨1, 0⟩ + (⟨0, 1⟩ : Vec2), NODE_FOOD), (⟨1, 0⟩, NODE_AIR)] :=
  c7_food_falls.1 foodWorld ⟨1, 0⟩ NODE_FOOD (by decide) (by decide)

/-- Claim C8.  The environment fields implement the specified formulas
with floor division, take their extreme values at the top and bottom
rows, and are monotone in the row index. -/
theorem c8_environment (cfg : Config)
    (hsh : 0 < cfg.SUN_LEVEL_HEIGHT) (hmh : 0 < cfg.MINERAL_LEVEL_HEIGHT)
    (hsa : 0 ≤ cfg.SUN_AMOUNT) (hma : 0 ≤ cfg.MINERAL_AMOUNT) :
    (∀ y : ℤ, 0 ≤ y →
      getSunAmountAt cfg y =
        max (cfg.SUN_AMOUNT - Int.fdiv y cfg.SUN_LEVEL_HEIGHT) 0) ∧
    (∀ y : ℤ, 0 ≤ y → y < cfg.WORLD_SIZE.y →
      getMineralAmountAt cfg y =
        max (cfg.MINERAL_AMOUNT -
          Int.fdiv (cfg.WORLD_SIZE.y - 1 - y) cfg.MINERAL_LEVEL_HEIGHT) 0) ∧
    getSunAmountAt cfg 0 = cfg.SUN_AMOUNT ∧
    (0 < cfg.WORLD_SIZE.y →
      getMineralAmountAt cfg (cfg.WORLD_SIZE.y - 1) = cfg.MINERAL_AMOUNT) ∧
    (∀ y1 y2 : ℤ, 0 ≤ y1 → y1 ≤ y2 →
      getSunAmountAt cfg y2 ≤ getSunAmountAt cfg y1) ∧
    (∀ y1 y2 : ℤ, 0 ≤ y1 → y1 ≤ y2 → y2 ≤ cfg.WORLD_SIZE.y - 1 →
      getMineralAmountAt cfg y1 ≤ getMineralAmountAt cfg y2) := by
  refine ⟨?_, ?_, ?_, ?_, ?_, ?_⟩
  · intro y hy
    unfold getSunAmountAt
    rw [Int.tdiv_eq_ediv hy (le_of_lt hsh), Int.fdiv_eq_ediv _ (le_of_lt hsh)]
  · intro y hy hyH
    unfold getMineralAmountAt
    dsimp only
    rw [Int.tdiv_eq_ediv (show (0 : ℤ) ≤ cfg.WORLD_SIZE.y - 1 - y by omega)
      (le_of_lt hmh), Int.fdiv_eq_ediv _ (le_of_lt hmh)]
  · unfold getSunAmountAt
    rw [Int.zero_tdiv, sub_zero]
    exact max_eq_left hsa
  · intro hH
    unfold getMineralAmountAt
    dsimp only
    have hz : cfg.WORLD_SIZE.y - 1 - (cfg.WORLD_SIZE.y - 1) = 0 := by omega
    rw [hz, Int.zero_tdiv, sub_zero]
    exact max_eq_left hma
  · intro y1 y2 h0 h12
    unfold getSunAmountAt
    rw [Int.tdiv_eq_ediv h0 (le_of_lt hsh),
      Int.tdiv_eq_ediv (show (0 : ℤ) ≤ y2 by omega) (le_of_lt hsh)]
    refine max_le_max ?_ (le_refl 0)
    have := Int.ediv_le_ediv hsh h12
    omega
  · intro y1 y2 h0 h12 h2H
    unfold getMineralAmountAt
    dsimp only
    rw [Int.tdiv_eq_ediv (show (0 : ℤ) ≤ cfg.WORLD_SIZE.y - 1 - y1 by omega)
      (le_of_lt hmh),
      Int.tdiv_eq_ediv (show (0 : ℤ) ≤ cfg.WORLD_SIZE.y - 1 - y2 by omega)
      (le_of_lt hmh)]
    refine max_le_max ?_ (le_refl 0)
    have := Int.ediv_le_ediv hmh (show cfg.WORLD_SIZE.y - 1 - y2 ≤
      cfg.WORLD_SIZE.y - 1 - y1 by omega)
    omega

/-- Witness for c8_environment at the concrete 3 by 3 configuration. -/
theorem c8_witness :
    getSunAmountAt cfg3 2 = max (cfg3.SUN_AMOUNT - Int.fdiv 2 cfg3.SUN_LEVEL_HEIGHT) 0 ∧
    getSunAmountAt cfg3 0 = cfg3.SUN_AMOUNT ∧
    getSunAmountAt cfg3 2 ≤ getSunAmountAt cfg3 1 :=
  ⟨(c8_environment cfg3 (by decide) (by decide) (by decide) (by decide)).1 2 (by decide),
    (c8_environment cfg3 (by decide) (by decide) (by decide) (by decide)).2.2.1,
    (c8_environment cfg3 (by decide) (by decide) (by decide) (by decide)).2.2.2.2.1 1 2
      (by decide) (by decide)⟩

/-- Claim C10.  A task for an active cell that is eaten this tick writes
AIR at its own position and nothing else: the current gene does not
execute. -/
theorem c10_eaten_frame (w : World) (pos : Vec2) (node : Node)
    (hread : getNodeAt w pos = node) (hk : node.kind = KIND_ACTIVE)
    (he : isEaten w pos = true) :
    taskWrites w pos = [(pos, NODE_AIR)] := by
  unfold taskWrites
  rw [hread]
  rw [if_neg (by rw [hk]; decide), if_pos hk]
  unfold stepActive
  rw [if_pos he]

/-- The predator: EAT_FORWARD at slot 0, facing east at (0, 0). -/
def eater : Node := ⟨KIND_ACTIVE, 0, 0, 20, 0, ⟨0, 0, 0⟩, 0, 0, 67 :: List.replicate 63 0⟩

/-- The prey at (1, 0). -/
def victim : Node := ⟨KIND_ACTIVE, 0, 0, 5, 0, ⟨0, 0, 0⟩, 0, 0, genomeR⟩

/-- A 3 by 3 world in which the eater faces the victim. -/
def eatWorld : World :=
  { config := cfg3
    lastWorld := fun i => if i = 0 then eater else if i = 3 then victim else NODE_AIR
    rand := fun _ => 1 / 2 }

/-- Witness for c10_eaten_frame at the concrete predation scenario. -/
theorem c10_witness : taskWrites eatWorld ⟨1, 0⟩ = [((⟨1, 0⟩ : Vec2), NODE_AIR)] :=
  c10_eaten_frame eatWorld ⟨1, 0⟩ victim (by decide) (by decide) (by decide)

/-! The stateful pseudo-random stream of the revision of the step kernel
that binds a randomState storage buffer (one u32 per cell), and its
seeding by the driver of that revision.  The seeding source value
Math.random() is a float in [0, 1) and is modelled as an oracle draw. -/

namespace Rng3

/-- The xorshift32 update applied by randU32 of that revision:
x ^= x << 13; x ^= x >> 17; x ^= x << 5 on u32 state. -/
def rngStep (x : ℕ) : ℕ :=
  let x1 := (x ^^^ ((x <<< 13) % 2 ^ 32)) % 2 ^ 32
  let x2 := (x1 ^^^ (x1 >>> 17)) % 2 ^ 32
  (x2 ^^^ ((x2 <<< 5) % 2 ^ 32)) % 2 ^ 32

/-- randU32(pos, min, maxExcluded) of that revision: read the cell's
state slot, apply the xorshift32 update, write the result back, and
return min + x mod (maxExcluded - min).  The state buffer is passed and
returned explicitly. -/
def randU32 (cfg : Config) (state : ℤ → ℕ) (pos : Vec2) (min maxExcluded : ℕ) :
    (ℤ → ℕ) × ℕ :=
  let index := getIndexForPos cfg pos
  let x := rngStep (state index)
  (fun i => if i = index then x else state i, min + x % (maxExcluded - min))

/-- One seed entry written at world reset:
Math.floor(Math.random() * 0xffffffff) with the float draw in [0, 1)
passed as an oracle rational. -/
def seedEntry (draw : ℚ) : ℕ := (Int.floor (draw * 4294967295)).toNat

/-- Repeated draws at one position: the n-th state and return value. -/
def drawSeq (cfg : Config) (state0 : ℤ → ℕ) (pos : Vec2) (min maxExcluded : ℕ) :
    ℕ → (ℤ → ℕ) × ℕ
  | 0 => randU32 cfg state0 pos min maxExcluded
  | n + 1 => randU32 cfg (drawSeq cfg state0 pos min maxExcluded n).1 pos min maxExcluded

end Rng3

/-- Claim C9, amended.  The per-cell stream of the randomState revision
is a stateful xorshift32 stream: each draw at a position reads that
cell's u32 slot, applies the xorshift32 update, writes the result back
leaving every other slot unchanged, and returns min + x mod
(maxExcluded - min); the n-th repeated draw at one position therefore
returns the n-th iterate of the update.  The zero state is a fixed point
of the update, and the seeding does not exclude it (see the
counterexample), so successive draws need not be distinct. -/
theorem c9_rng (cfg : Config) (state0 : ℤ → ℕ) (pos : Vec2) (min maxExcluded : ℕ) :
    (∀ n : ℕ,
      (Rng3.drawSeq cfg state0 pos min maxExcluded n).1 (getIndexForPos cfg pos) =
        Rng3.rngStep^[n + 1] (state0 (getIndexForPos cfg pos)) ∧
      (Rng3.drawSeq cfg state0 pos min maxExcluded n).2 =
        min + Rng3.rngStep^[n + 1] (state0 (getIndexForPos cfg pos)) %
          (maxExcluded - min)) ∧
    (∀ i, i ≠ getIndexForPos cfg pos →
      ∀ n, (Rng3.drawSeq cfg state0 pos min maxExcluded n).1 i = state0 i) ∧
    Rng3.rngStep 0 = 0 := by
  have hstate : ∀ n,
      (Rng3.drawSeq cfg state0 pos min maxExcluded n).1 (getIndexForPos cfg pos) =
        Rng3.rngStep^[n + 1] (state0 (getIndexForPos cfg pos)) ∧
      (Rng3.drawSeq cfg state0 pos min maxExcluded n).2 =
        min + Rng3.rngStep^[n + 1] (state0 (getIndexForPos cfg pos)) %
          (maxExcluded - min) ∧
      ∀ i, i ≠ getIndexForPos cfg pos →
        (Rng3.drawSeq cfg state0 pos min maxExcluded n).1 i = state0 i := by
    intro n
    induction n with
    | zero =>
      refine ⟨by simp [Rng3.drawSeq, Rng3.randU32], by simp [Rng3.drawSeq, Rng3.randU32], ?_⟩
      intro i hi
      simp [Rng3.drawSeq, Rng3.randU32, hi]
    | succ n ih =>
      obtain ⟨ih1, ih2, ih3⟩ := ih
      refine ⟨?_, ?_, ?_⟩
      · simp [Rng3.drawSeq, Rng3.randU32, ih1, Function.iterate_succ_apply']
      · simp [Rng3.drawSeq, Rng3.randU32, ih1, Function.iterate_succ_apply']
      · intro i hi
        simp [Rng3.drawSeq, Rng3.randU32, hi, ih3 i hi]
  exact ⟨fun n => ⟨(hstate n).1, (hstate n).2.1⟩,
    fun i hi n => (hstate n).2.2 i hi, by decide⟩

/-- Claim C9, counterexample.  Math.random can draw any value in [0, 1);
at the legal draw 1 / 2 ^ 33 the seeding writes the state 0, which the
claim says seeding must exclude; 0 is a fixed point of the xorshift32
update, so the first and second draws at that cell return the same
value, not successive distinct values. -/
theorem c9_counterexample :
    (0 : ℚ) ≤ 1 / 2 ^ 33 ∧ (1 / 2 ^ 33 : ℚ) < 1 ∧
    Rng3.seedEntry (1 / 2 ^ 33) = 0 ∧
    Rng3.rngStep 0 = 0 ∧
    (Rng3.drawSeq cfg3 (fun _ => 0) ⟨1, 1⟩ 0 100 0).2 =
      (Rng3.drawSeq cfg3 (fun _ => 0) ⟨1, 1⟩ 0 100 1).2 := by
  decide


end LifeSim
